import Mathlib

/-!
Verification of the rate-governed GitHub contribution aggregation engine
(`main.py` of bhavik-mangla/ContributionsCalc).

The engine is embedded shallowly, component by component:

* Quota Tracker (`update_rate_limit_info`, `wait_for_rate_limit`):
  the analyzer fields `rate_limit_remaining` / `rate_limit_reset`, the model
  clock `now` replacing `time.time()`, and a stream `quotaEvents` replacing
  the responses of the `/rate_limit` endpoint.  Every call to `time.sleep`,
  every outgoing GET and every quota-endpoint query is recorded in an
  observation log `obs`, so that theorems can speak about network traffic
  and waiting.
* Paginated Fetcher (`paginated_request`, source name `_paginated_request`):
  a stubbed wire `wire : List WireEvent` supplies one event per issued GET;
  an event is either a network-level failure (`requests.exceptions.
  RequestException`) or an HTTP response with status, body text, parsed JSON
  body, the two `X-RateLimit-*` headers and the URL extracted from the
  `rel="next"` relation of the `Link` header.  The mutually recursive
  while-loop / restart structure of the source is written with an explicit
  fuel argument; each loop iteration consumes one wire event.
* Stats Aggregator (`get_user_stats`) and Run Orchestrator (`analyze_users`)
  are embedded further below against their own stubbed oracles.
-/

set_option autoImplicit false

namespace ContribCalc

/-- Parsed JSON body of one page response: a bare JSON array, a JSON object
carrying an `items` array, or any other JSON value (represented opaquely by a
tag).  Elements of the two array shapes are JSON objects, which the fetcher
treats as opaque records; they are represented by `Nat` tags. -/
inductive Body where
  | list (xs : List Nat)
  | items (xs : List Nat)
  | other (v : Nat)
deriving DecidableEq, Repr

/-- One stubbed wire interaction: either `requests.get` raises a network-level
error, or it returns a response.  `nextUrl` is the target of the `rel="next"`
relation parsed from the `Link` response header (absent when the header has no
such relation); the `Link`-header string manipulation of lines 582-588 is
modeled at the level of this already-extracted URL. -/
inductive WireEvent where
  | netError (msg : String)
  | resp (status : Nat) (text : String) (body : Body)
      (hdrRemaining hdrReset : Option Int) (nextUrl : Option String)
deriving DecidableEq, Repr

/-- Observable side effects of the engine: a GET issued to a URL, a call to
`time.sleep`, and a query of the `/rate_limit` endpoint made by
`update_rate_limit_info`. -/
inductive Obs where
  | getRequest (url : String)
  | sleep (secs : Int)
  | quotaCheckReq
deriving DecidableEq, Repr

/-- The mutable analyzer state relevant to the fetcher, together with the
stubbed environment: `cache` is `self.cache` (first match wins, new entries
are prepended, matching dict overwrite semantics), `now` is the model clock,
`wire` the pending stubbed GET outcomes and `quotaEvents` the pending
outcomes of the `/rate_limit` endpoint (`none` = non-200 or exception). -/
structure Sys where
  cache : List (String × Option Body)
  rate_limit_remaining : Int
  rate_limit_reset : Int
  now : Int
  wire : List WireEvent
  quotaEvents : List (Option (Int × Int))
  obs : List Obs
deriving DecidableEq, Repr

/-- First-match lookup in the cache association list. -/
def cacheLookup : List (String × Option Body) → String → Option (Option Body)
  | [], _ => none
  | (k, v) :: t, url => if k = url then some v else cacheLookup t url

/-- `update_rate_limit_info` (lines 62-74): query the quota endpoint; on a 200
response overwrite `rate_limit_remaining` / `rate_limit_reset`; on any other
outcome leave the previous state. -/
def update_rate_limit_info (s : Sys) : Sys :=
  let s := { s with obs := s.obs ++ [Obs.quotaCheckReq] }
  match s.quotaEvents with
  | [] => s
  | e :: rest =>
    let s := { s with quotaEvents := rest }
    match e with
    | some (rem, rst) =>
      { s with rate_limit_remaining := rem, rate_limit_reset := rst }
    | none => s

/-- `time.sleep t`: advance the model clock and record the wait. -/
def sleepFor (s : Sys) (t : Int) : Sys :=
  { s with now := s.now + t, obs := s.obs ++ [Obs.sleep t] }

/-- `wait_for_rate_limit` (lines 76-85): if fewer than 10 requests remain and
the current time is before the reset timestamp, sleep until `reset + 5` and
then refresh the quota information; otherwise return immediately. -/
def wait_for_rate_limit (s : Sys) : Sys :=
  if s.rate_limit_remaining < 10 then
    if s.now < s.rate_limit_reset then
      let wait_time := s.rate_limit_reset - s.now + 5
      update_rate_limit_info (sleepFor s wait_time)
    else s
  else s

/-- Whether `pat` is a prefix of `l` (character-wise). -/
def listPrefixEq : List Char → List Char → Bool
  | [], _ => true
  | _ :: _, [] => false
  | a :: as, b :: bs => a == b && listPrefixEq as bs

/-- Whether `pat` occurs as a contiguous sublist. -/
def hasSubAux (pat : List Char) : List Char → Bool
  | [] => pat.isEmpty
  | c :: rest => listPrefixEq pat (c :: rest) || hasSubAux pat rest

/-- Python substring test `pat in s`. -/
def containsSub (s pat : String) : Bool := hasSubAux pat.data s.data

/-- ASCII lower-casing of one character, as `str.lower` acts on the ASCII
strings involved here. -/
def asciiLower (c : Char) : Char :=
  if 65 ≤ c.toNat ∧ c.toNat ≤ 90 then Char.ofNat (c.toNat + 32) else c

/-- Python `s.lower()` on ASCII strings. -/
def lowerStr (s : String) : String := ⟨s.data.map asciiLower⟩

/-- Issue one GET (line 540): record the request, consume the next stubbed
wire event.  An exhausted stub is modeled as a network-level failure. -/
def takeWire (s : Sys) (url : String) : WireEvent × Sys :=
  let s := { s with obs := s.obs ++ [Obs.getRequest url] }
  match s.wire with
  | [] => (WireEvent.netError "no stubbed response", s)
  | e :: rest => (e, { s with wire := rest })

/-- Header processing of lines 543-546: overwrite the quota fields from the
`X-RateLimit-Remaining` / `X-RateLimit-Reset` headers when present. -/
def applyHeaders (s : Sys) (hr hq : Option Int) : Sys :=
  let s := match hr with
    | some v => { s with rate_limit_remaining := v }
    | none => s
  match hq with
  | some v => { s with rate_limit_reset := v }
  | none => s

/-- Result accumulation of lines 576-579.  Python evaluates
`isinstance(results, list) and isinstance(data, list)` and then
`'items' in results and 'items' in data`; for a bare-array accumulator the
second test is membership of the string `"items"` among the accumulated JSON
objects, which is false, and for a JSON object without an `items` key it is
false as well, so every mismatched combination leaves the accumulator
unchanged. -/
def pyCombine : Body → Body → Body
  | Body.list rs, Body.list ds => Body.list (rs ++ ds)
  | Body.items rs, Body.items ds => Body.items (rs ++ ds)
  | r, _ => r

/-- Truthiness of the `next_url` loop variable: `None` and the empty string
are falsy. -/
def truthyUrl : Option String → Bool
  | none => false
  | some u => u ≠ ""

/-- `max_retries` (line 534). -/
def max_retries : Nat := 3

/-- Failures of one fetch: a non-200, non-recovered HTTP status
(`raise Exception(...)`, line 559), a network failure after exhausting the
retries (line 604), or exhaustion of the model fuel. -/
inductive PErr where
  | request (status : Nat) (text : String)
  | network (msg : String)
  | fuel
deriving DecidableEq, Repr

/-- Outcome of the page loop of `_paginated_request` (lines 537-604), as seen
by its caller: normal exit of the `while` (the accumulated results, possibly
Python `None` when the initial URL is falsy), an exception, a restart of the
whole fetch (line 554), or fuel exhaustion. -/
inductive LoopOut where
  | done (results : Option Body) (s : Sys)
  | failed (e : PErr) (s : Sys)
  | restart (s : Sys)
  | fuelOut (s : Sys)
deriving DecidableEq, Repr

/-- The page loop of `_paginated_request` (lines 537-604).  `url` is the
original request URL (used only for the restart at line 554, which the caller
performs), `nextUrl` the current page URL, `results` the accumulator, `retry`
the network retry counter.  Each iteration consumes one unit of fuel together
with one wire event. -/
def pagLoop : Nat → String → Option String → Option Body → Nat → Sys → LoopOut
  | 0, _, _, _, _, s => LoopOut.fuelOut s
  | fuel + 1, url, nextUrl, results, retry, s =>
    if truthyUrl nextUrl then
      let nu := nextUrl.getD ""
      let (ev, s) := takeWire s nu
      match ev with
      | WireEvent.netError msg =>
        if retry < max_retries then
          let retry := retry + 1
          pagLoop fuel url nextUrl results retry (sleepFor s (2 ^ retry))
        else LoopOut.failed (PErr.network msg) s
      | WireEvent.resp status text body hr hq nxt =>
        let s := applyHeaders s hr hq
        if status == 403 && containsSub (lowerStr text) "rate limit exceeded" then
          let wait_time := s.rate_limit_reset - s.now + 5
          if wait_time > 0 then
            LoopOut.restart (sleepFor s wait_time)
          else
            -- after update_rate_limit_info control falls through to the
            -- `status_code != 200` check of line 558 and raises
            LoopOut.failed (PErr.request status text) (update_rate_limit_info s)
        else if status ≠ 200 then
          LoopOut.failed (PErr.request status text) s
        else
          match results, body with
          | none, Body.other v => LoopOut.done (some (Body.other v)) s
          | _, _ =>
            let r0 : Body := match results with
              | some r => r
              | none => match body with
                | Body.list _ => Body.list []
                | _ => Body.items []
            let results := pyCombine r0 body
            if truthyUrl nxt then
              pagLoop fuel url nxt (some results) 0 (wait_for_rate_limit s)
            else LoopOut.done (some results) s
    else LoopOut.done results s

/-- `_paginated_request` (lines 513-608): cache lookup, quota gate, page loop,
restart handling and final caching.  Exceptions abandon the partial
accumulation but keep the mutated analyzer state, hence the error case also
returns the final `Sys`. -/
def paginated_request (url : String) : Nat → Sys → Except PErr (Option Body) × Sys
  | 0, s =>
    (match cacheLookup s.cache url with
      | some r => (Except.ok r, s)
      | none => (Except.error PErr.fuel, s))
  | fuel + 1, s =>
    match cacheLookup s.cache url with
    | some r => (Except.ok r, s)
    | none =>
      match pagLoop fuel url (some url) none 0 (wait_for_rate_limit s) with
      | LoopOut.done results s2 =>
        (Except.ok results, { s2 with cache := (url, results) :: s2.cache })
      | LoopOut.failed e s2 => (Except.error e, s2)
      | LoopOut.restart s2 => paginated_request url fuel s2
      | LoopOut.fuelOut s2 => (Except.error PErr.fuel, s2)

/-! ### Quota Tracker theorems (claim C3) -/

/-- Claim C3 counterexample.  The claim states that whenever
`wait_for_rate_limit` is called with fewer than 10 remaining requests, it
blocks until the reset timestamp plus 5 seconds has elapsed and then calls
`update_rate_limit_info` before returning.  With 5 requests remaining, reset
timestamp 100 and current time 102 (at or past the reset, but before
reset + 5), the call returns immediately: the state is unchanged, the clock
stays at 102 < 105, and no quota-endpoint query is recorded. -/
theorem wait_for_rate_limit_no_refresh_cex :
    (⟨[], 5, 100, 102, [], [some (99, 200)], []⟩ : Sys).rate_limit_remaining < 10 ∧
    wait_for_rate_limit ⟨[], 5, 100, 102, [], [some (99, 200)], []⟩ =
      ⟨[], 5, 100, 102, [], [some (99, 200)], []⟩ ∧
    ¬ ((wait_for_rate_limit ⟨[], 5, 100, 102, [], [some (99, 200)], []⟩).now ≥
        (⟨[], 5, 100, 102, [], [some (99, 200)], []⟩ : Sys).rate_limit_reset + 5) ∧
    (wait_for_rate_limit ⟨[], 5, 100, 102, [], [some (99, 200)], []⟩).obs = [] := by
  refine ⟨by decide, by decide, by decide, by decide⟩

/-- Claim C3 (amended): if fewer than 10 requests remain AND the current time
is strictly before the reset timestamp, `wait_for_rate_limit` sleeps for
`reset - now + 5` seconds (so it returns with the clock at `reset + 5`) and
then calls `update_rate_limit_info`; when the current time is already at or
past the reset timestamp it returns immediately, without waiting and without
refreshing. -/
theorem wait_for_rate_limit_amended (s : Sys)
    (hrem : s.rate_limit_remaining < 10) :
    (s.now < s.rate_limit_reset →
      wait_for_rate_limit s =
        update_rate_limit_info (sleepFor s (s.rate_limit_reset - s.now + 5)) ∧
      (wait_for_rate_limit s).now = s.rate_limit_reset + 5) ∧
    (s.rate_limit_reset ≤ s.now → wait_for_rate_limit s = s) := by
  constructor
  · intro hlt
    have h1 : wait_for_rate_limit s =
        update_rate_limit_info (sleepFor s (s.rate_limit_reset - s.now + 5)) := by
      simp [wait_for_rate_limit, hrem, hlt]
    refine ⟨h1, ?_⟩
    rw [h1]
    have h2 : ∀ t : Sys, (update_rate_limit_info t).now = t.now := by
      intro t
      simp only [update_rate_limit_info]
      cases t.quotaEvents with
      | nil => rfl
      | cons e rest => cases e with
        | none => rfl
        | some p => rfl
    rw [h2]
    simp [sleepFor]
    omega
  · intro hge
    simp [wait_for_rate_limit, hrem]
    omega

/-- Claim C3 (amended) witness: with 5 remaining requests, reset at 100 and
current time 90, the call sleeps 15 seconds (returning at clock 105) and then
queries the quota endpoint. -/
theorem wait_for_rate_limit_amended_witness :
    (wait_for_rate_limit ⟨[], 5, 100, 90, [], [some (4000, 7200)], []⟩ =
      update_rate_limit_info (sleepFor ⟨[], 5, 100, 90, [], [some (4000, 7200)], []⟩ 15) ∧
    (wait_for_rate_limit ⟨[], 5, 100, 90, [], [some (4000, 7200)], []⟩).now = 105) :=
  (wait_for_rate_limit_amended ⟨[], 5, 100, 90, [], [some (4000, 7200)], []⟩
    (by decide)).1 (by decide)

/-! ### Paginated Fetcher theorems (claims C1, C2, C8, C9) -/

/-- Every successful `paginated_request` leaves its result in the cache under
the original URL. -/
theorem paginated_request_caches (url : String) :
    ∀ (fuel : Nat) (s : Sys) (out : Option Body) (s' : Sys),
      paginated_request url fuel s = (Except.ok out, s') →
      cacheLookup s'.cache url = some out := by
  intro fuel
  induction fuel with
  | zero =>
    intro s out s' h
    simp only [paginated_request] at h
    cases hcl : cacheLookup s.cache url with
    | some r => rw [hcl] at h; cases h; simpa using hcl
    | none => rw [hcl] at h; cases h
  | succ fuel ih =>
    intro s out s' h
    simp only [paginated_request] at h
    cases hcl : cacheLookup s.cache url with
    | some r => rw [hcl] at h; cases h; simpa using hcl
    | none =>
      rw [hcl] at h
      cases hl : pagLoop fuel url (some url) none 0 (wait_for_rate_limit s) with
      | done res s2 =>
        rw [hl] at h
        cases h
        simp [cacheLookup]
      | failed e s2 => rw [hl] at h; cases h
      | restart s2 => rw [hl] at h; exact ih s2 out s' h
      | fuelOut s2 => rw [hl] at h; cases h

/-- Claim C1: once a call to `_paginated_request` for a URL has completed
successfully, any further call with the same URL within the same process
returns the cached accumulated result immediately: the second call returns
the very same result and leaves the state completely unchanged, so it issues
no network request, consumes no stubbed wire event, performs no quota check
and records no observation.  Hence at most one successful network round-trip
sequence occurs per distinct URL per process lifetime. -/
theorem paginated_request_cached_second_call
    (url : String) (fuel fuel' : Nat) (s : Sys) (out : Option Body) (s' : Sys)
    (h : paginated_request url fuel s = (Except.ok out, s')) :
    paginated_request url fuel' s' = (Except.ok out, s') := by
  have hc := paginated_request_caches url fuel s out s' h
  cases fuel' with
  | zero => simp [paginated_request, hc]
  | succ f => simp [paginated_request, hc]

/-- Claim C1 witness: a concrete one-page fetch succeeds, and a second call
on the resulting state returns the same result with the state unchanged. -/
theorem paginated_request_cached_second_call_witness :
    paginated_request "u" 7
        ⟨[("u", some (Body.list [1, 2]))], 100, 0, 0, [], [], [Obs.getRequest "u"]⟩ =
      (Except.ok (some (Body.list [1, 2])),
        ⟨[("u", some (Body.list [1, 2]))], 100, 0, 0, [], [], [Obs.getRequest "u"]⟩) :=
  paginated_request_cached_second_call "u" 2 7
    ⟨[], 100, 0, 0, [WireEvent.resp 200 "ok" (Body.list [1, 2]) none none none], [], []⟩
    (some (Body.list [1, 2]))
    ⟨[("u", some (Body.list [1, 2]))], 100, 0, 0, [], [], [Obs.getRequest "u"]⟩
    rfl

/-- Claim C2 counterexample.  The claim states that a quota-exceeded response
(403 with the rate-limit phrase) never causes the call to fail, and when the
reset time has already passed the fetcher refreshes quota and continues
immediately.  In this environment the single page response is a 403 with the
phrase, with the reset timestamp (0) already 10 seconds in the past: the code
refreshes the quota info (the quota event is consumed) but then falls through
to the non-200 check and the call FAILS with a request error. -/
theorem paginated_request_quota_fail_cex :
    paginated_request "u" 5
        ⟨[], 100, 0, 10,
          [WireEvent.resp 403 "API rate limit exceeded for user" (Body.other 0)
            none none none], [some (50, 999)], []⟩ =
      (Except.error (PErr.request 403 "API rate limit exceeded for user"),
        ⟨[], 50, 999, 10, [], [],
          [Obs.getRequest "u", Obs.quotaCheckReq]⟩) := by
  rfl

/-- Claim C2 (amended): when a page response has status 403 with the
rate-limit phrase in its body, then with `wait = resetAt - now + 5` (computed
after updating the quota fields from the response headers):
if `wait > 0` the fetcher sleeps `wait` seconds and signals a restart, which
`_paginated_request` turns into a complete re-fetch from the ORIGINAL url with
an empty accumulator (never resuming mid-pagination); if `wait ≤ 0` (reset
already passed) it refreshes the quota info and then the call FAILS with a
request error carrying status 403 — so quota exhaustion can fail the call,
which the orchestrator in turn may catch and retry. -/
theorem paginated_request_quota_amended :
    (∀ (fuel : Nat) (url nu text : String) (body : Body)
        (hr hq : Option Int) (nxt : Option String) (w' : List WireEvent)
        (res : Option Body) (retry : Nat) (s : Sys),
      s.wire = WireEvent.resp 403 text body hr hq nxt :: w' →
      containsSub (lowerStr text) "rate limit exceeded" = true →
      nu ≠ "" →
      pagLoop (fuel + 1) url (some nu) res retry s =
        (let s1 := applyHeaders
            { s with wire := w', obs := s.obs ++ [Obs.getRequest nu] } hr hq
         let wait := s1.rate_limit_reset - s1.now + 5
         if wait > 0 then LoopOut.restart (sleepFor s1 wait)
         else LoopOut.failed (PErr.request 403 text) (update_rate_limit_info s1))) ∧
    (∀ (g : Nat) (url : String) (t s2 : Sys),
      cacheLookup t.cache url = none →
      pagLoop g url (some url) none 0 (wait_for_rate_limit t) = LoopOut.restart s2 →
      paginated_request url (g + 1) t = paginated_request url g s2) := by
  constructor
  · intro fuel url nu text body hr hq nxt w' res retry s h1 h2 h3
    have ht : truthyUrl (some nu) = true := by simp [truthyUrl, h3]
    simp only [pagLoop, takeWire]
    simp [ht, h1, h2]
  · intro g url t s2 hc hl
    simp only [paginated_request, hc, hl]

/-- Claim C2 (amended) witness: a 403 quota response whose headers set the
reset timestamp to 50 (45 seconds in the future) makes the loop sleep 55
seconds and signal a restart, and `_paginated_request` handles that restart by
re-invoking itself on the original URL and the slept state. -/
theorem paginated_request_quota_amended_witness :
    (pagLoop 3 "u" (some "u") none 0
        ⟨[], 100, 0, 0,
          [WireEvent.resp 403 "rate limit exceeded" (Body.other 0) none (some 50) none,
           WireEvent.resp 200 "ok" (Body.list [7]) none none none], [], []⟩ =
      LoopOut.restart
        ⟨[], 100, 50, 55,
          [WireEvent.resp 200 "ok" (Body.list [7]) none none none], [],
          [Obs.getRequest "u", Obs.sleep 55]⟩) ∧
    (paginated_request "u" 3
        ⟨[], 100, 0, 0,
          [WireEvent.resp 403 "rate limit exceeded" (Body.other 0) none (some 50) none,
           WireEvent.resp 200 "ok" (Body.list [7]) none none none], [], []⟩ =
      paginated_request "u" 2
        ⟨[], 100, 50, 55,
          [WireEvent.resp 200 "ok" (Body.list [7]) none none none], [],
          [Obs.getRequest "u", Obs.sleep 55]⟩) := by
  constructor
  · have h := paginated_request_quota_amended.1 2 "u" "u" "rate limit exceeded"
      (Body.other 0) none (some 50) none
      [WireEvent.resp 200 "ok" (Body.list [7]) none none none] none 0
      ⟨[], 100, 0, 0,
        [WireEvent.resp 403 "rate limit exceeded" (Body.other 0) none (some 50) none,
         WireEvent.resp 200 "ok" (Body.list [7]) none none none], [], []⟩
      rfl (by decide) (by decide)
    exact h
  · exact paginated_request_quota_amended.2 2 "u"
      ⟨[], 100, 0, 0,
        [WireEvent.resp 403 "rate limit exceeded" (Body.other 0) none (some 50) none,
         WireEvent.resp 200 "ok" (Body.list [7]) none none none], [], []⟩
      ⟨[], 100, 50, 55,
        [WireEvent.resp 200 "ok" (Body.list [7]) none none none], [],
        [Obs.getRequest "u", Obs.sleep 55]⟩
      rfl rfl

/-- Claim C8: when a page request fails with a network-level error, the loop
retries it (same page URL, same accumulator) for up to `max_retries = 3`
attempts, sleeping `2 ^ attempt` seconds before retry number `attempt`
(2 s, 4 s, 8 s for attempts 1, 2, 3); once `retry` has reached 3, a further
network failure makes the whole call fail by raising the network error. -/
theorem network_retry_backoff (fuel : Nat) (url nu : String) (res : Option Body)
    (retry : Nat) (s : Sys) (m : String) (w' : List WireEvent)
    (h1 : s.wire = WireEvent.netError m :: w') (h3 : nu ≠ "") :
    pagLoop (fuel + 1) url (some nu) res retry s =
      if retry < max_retries then
        pagLoop fuel url (some nu) res (retry + 1)
          (sleepFor { s with wire := w', obs := s.obs ++ [Obs.getRequest nu] }
            (2 ^ (retry + 1)))
      else
        LoopOut.failed (PErr.network m)
          { s with wire := w', obs := s.obs ++ [Obs.getRequest nu] } := by
  have ht : truthyUrl (some nu) = true := by simp [truthyUrl, h3]
  simp only [pagLoop, takeWire]
  simp [ht, h1]

/-- Claim C8 witness: with the retry counter at its limit, one more network
failure fails the call with the network error. -/
theorem network_retry_backoff_witness :
    pagLoop 4 "u" (some "p2") (some (Body.list [1])) 3
        ⟨[], 100, 0, 0, [WireEvent.netError "connection reset"], [], []⟩ =
      LoopOut.failed (PErr.network "connection reset")
        ⟨[], 100, 0, 0, [], [], [Obs.getRequest "p2"]⟩ := by
  have h := network_retry_backoff 3 "u" "p2" (some (Body.list [1])) 3
    ⟨[], 100, 0, 0, [WireEvent.netError "connection reset"], [], []⟩
    "connection reset" [] rfl (by decide)
  simpa using h

/-- Claim C9: when the accumulated result and a subsequent page body have
mismatched shapes — bare-array accumulator with an items-object page, or
items-object accumulator with a bare-array page — the records of the
mismatched page are silently dropped: the accumulator is unchanged, no error
is raised, and pagination continues with the next page URL. -/
theorem mismatched_page_dropped :
    (∀ (fuel : Nat) (url nu text : String) (rs ds : List Nat)
        (hr hq : Option Int) (nxt : Option String) (w' : List WireEvent)
        (retry : Nat) (s : Sys),
      s.wire = WireEvent.resp 200 text (Body.items ds) hr hq nxt :: w' →
      nu ≠ "" →
      truthyUrl nxt = true →
      pagLoop (fuel + 1) url (some nu) (some (Body.list rs)) retry s =
        pagLoop fuel url nxt (some (Body.list rs)) 0
          (wait_for_rate_limit (applyHeaders
            { s with wire := w', obs := s.obs ++ [Obs.getRequest nu] } hr hq))) ∧
    (∀ (fuel : Nat) (url nu text : String) (rs ds : List Nat)
        (hr hq : Option Int) (nxt : Option String) (w' : List WireEvent)
        (retry : Nat) (s : Sys),
      s.wire = WireEvent.resp 200 text (Body.list ds) hr hq nxt :: w' →
      nu ≠ "" →
      truthyUrl nxt = true →
      pagLoop (fuel + 1) url (some nu) (some (Body.items rs)) retry s =
        pagLoop fuel url nxt (some (Body.items rs)) 0
          (wait_for_rate_limit (applyHeaders
            { s with wire := w', obs := s.obs ++ [Obs.getRequest nu] } hr hq))) := by
  constructor
  · intro fuel url nu text rs ds hr hq nxt w' retry s h1 h3 htr
    have ht : truthyUrl (some nu) = true := by simp [truthyUrl, h3]
    simp only [pagLoop, takeWire]
    simp [ht, h1, htr, pyCombine]
  · intro fuel url nu text rs ds hr hq nxt w' retry s h1 h3 htr
    have ht : truthyUrl (some nu) = true := by simp [truthyUrl, h3]
    simp only [pagLoop, takeWire]
    simp [ht, h1, htr, pyCombine]

/-- Claim C9 witness: a bare-array accumulator `[1]` meeting an items-object
page `{items: [5, 6]}` keeps the accumulator `[1]` and continues to the next
page. -/
theorem mismatched_page_dropped_witness :
    pagLoop 4 "u" (some "p2") (some (Body.list [1])) 0
        ⟨[], 100, 0, 0,
          [WireEvent.resp 200 "ok" (Body.items [5, 6]) none none (some "p3")], [], []⟩ =
      pagLoop 3 "u" (some "p3") (some (Body.list [1])) 0
        (wait_for_rate_limit
          ⟨[], 100, 0, 0, [], [], [Obs.getRequest "p2"]⟩) := by
  have h := mismatched_page_dropped.1 3 "u" "p2" "ok" [1] [5, 6] none none
    (some "p3") [] 0
    ⟨[], 100, 0, 0,
      [WireEvent.resp 200 "ok" (Body.items [5, 6]) none none (some "p3")], [], []⟩
    rfl (by decide) (by decide)
  simpa using h

/-! ### Stats Aggregator (`get_user_stats`, lines 113-268)

`get_user_stats` consumes `_paginated_request` results.  Within one call each
query URL is distinct, and for a fixed analyzer cache and stub the completed
fetch of one URL is a function of that URL, so the fetcher is abstracted here
as a total oracle `fetch : String → SResp`; a fetch failure would abort the
whole user by re-raising (lines 251-253), and the claims below concern calls
that complete. -/

/-- One record of a search-style response: a JSON object with the fields read
by the aggregator.  `state` is `item.get('state')` (`none` when absent),
`merged_at` the value of `item.get('pull_request', {}).get('merged_at')`
(`none` when absent or JSON null), `repository_url` is
`item.get('repository_url', '')`. -/
structure SItem where
  state : Option String
  merged_at : Option String
  repository_url : String
deriving DecidableEq, Repr

/-- A completed `_paginated_request` result as inspected by the aggregator:
a JSON object with an `items` array, a bare JSON array, or any other value
carrying only its Python truthiness.  `items` objects are always truthy (they
have at least the `items` key), and for a bare array the membership test
`'items' in data` compares the string against JSON objects and is false, so
`data and 'items' in data` holds exactly for the `items` case and
`isinstance(data, list)` exactly for the `list` case. -/
inductive SResp where
  | items (xs : List SItem)
  | list (xs : List SItem)
  | other (truthy : Bool)
deriving DecidableEq, Repr

/-- Configuration of the analyzer as far as the aggregator needs it:
`self.organizations`, `self.time_filter`, and the fetch oracle standing for
`self._paginated_request`. -/
structure Config where
  organizations : List String
  time_filter : String
  fetch : String → SResp

/-- `self.base_url`. -/
def base_url : String := "https://api.github.com"

/-- URL of the authored-PRs search (line 157). -/
def prs_created_url (cfg : Config) (username org : String) : String :=
  base_url ++ "/search/issues?q=author:" ++ username ++ "+org:" ++ org ++
    "+is:pr" ++ cfg.time_filter ++ "&per_page=100"

/-- URL of the authored-issues search (line 184). -/
def issues_search_url (cfg : Config) (username org : String) : String :=
  base_url ++ "/search/issues?q=author:" ++ username ++ "+org:" ++ org ++
    "+is:issue" ++ cfg.time_filter ++ "&per_page=100"

/-- URL of the per-repository commit listing (line 213). -/
def commits_url (org repo_name username : String) : String :=
  base_url ++ "/repos/" ++ org ++ "/" ++ repo_name ++ "/commits?author=" ++
    username ++ "&per_page=100"

/-- URL of the reviewed-PRs search (line 224). -/
def reviews_url (cfg : Config) (username org : String) : String :=
  base_url ++ "/search/issues?q=reviewed-by:" ++ username ++ "+org:" ++ org ++
    "+is:pr" ++ cfg.time_filter ++ "&per_page=100"

/-- URL of the issue-comment participation search (line 232). -/
def comments_url_issues (cfg : Config) (username org : String) : String :=
  base_url ++ "/search/issues?q=commenter:" ++ username ++ "+org:" ++ org ++
    "+is:issue" ++ cfg.time_filter ++ "&per_page=100"

/-- URL of the PR-comment participation search (line 237). -/
def comments_url_prs (cfg : Config) (username org : String) : String :=
  base_url ++ "/search/issues?q=commenter:" ++ username ++ "+org:" ++ org ++
    "+is:pr" ++ cfg.time_filter ++ "&per_page=100"

/-- Python truthiness of a possibly-absent string field: absent, JSON null
and the empty string are falsy. -/
def pyTruthy : Option String → Bool
  | none => false
  | some s => s ≠ ""

/-- `repo_url.split('/')[-1]`: the characters after the last slash. -/
def afterLastSlash : List Char → List Char → List Char
  | [], acc => acc.reverse
  | c :: rest, acc =>
    if c = '/' then afterLastSlash rest [] else afterLastSlash rest (c :: acc)

/-- `repo_url.split('/')[-1]` as a string function. -/
def lastSeg (s : String) : String := ⟨afterLastSlash s.data []⟩

/-- Python set of strings, modeled as a duplicate-free list: `add` prepends
when absent. -/
def setInsert (x : String) (s : List String) : List String :=
  if x ∈ s then s else x :: s

/-- The counters of one `stats['organizations'][org]` entry (lines 139-149)
and likewise of the top-level `stats` entry (lines 123-135), while the
repository set is still a set. -/
structure Counters where
  pr_total : Nat
  pr_merged : Nat
  pr_open : Nat
  commits : Nat
  issues_opened : Nat
  issues_closed : Nat
  issues_commented : Nat
  repos_contributed : List String
  reviews_submitted : Nat
deriving DecidableEq, Repr

/-- The zero-initialized counters. -/
def czero : Counters := ⟨0, 0, 0, 0, 0, 0, 0, [], 0⟩

/-- Body of the per-PR loop (lines 166-181), updating the per-organization
counters `o` and the top-level counters `t` in lockstep: classify by state
(open; closed and merged when the merge timestamp is truthy), then record the
touched repository (org-qualified in the top-level set). -/
def prStep (org : String) : Counters × Counters → SItem → Counters × Counters
  | (o, t), pr =>
    let (o, t) :=
      if pr.state = some "open" then
        ({ o with pr_open := o.pr_open + 1 }, { t with pr_open := t.pr_open + 1 })
      else if pr.state = some "closed" then
        if pyTruthy pr.merged_at then
          ({ o with pr_merged := o.pr_merged + 1 },
           { t with pr_merged := t.pr_merged + 1 })
        else (o, t)
      else (o, t)
    if pr.repository_url ≠ "" then
      let repo_name := lastSeg pr.repository_url
      ({ o with repos_contributed := setInsert repo_name o.repos_contributed },
       { t with repos_contributed :=
          setInsert (org ++ "/" ++ repo_name) t.repos_contributed })
    else (o, t)

/-- Body of the per-issue loop (lines 193-203): count closed issues, record
the touched repository. -/
def issueStep (org : String) : Counters × Counters → SItem → Counters × Counters
  | (o, t), issue =>
    let (o, t) :=
      if issue.state = some "closed" then
        ({ o with issues_closed := o.issues_closed + 1 },
         { t with issues_closed := t.issues_closed + 1 })
      else (o, t)
    if issue.repository_url ≠ "" then
      let repo_name := lastSeg issue.repository_url
      ({ o with repos_contributed := setInsert repo_name o.repos_contributed },
       { t with repos_contributed :=
          setInsert (org ++ "/" ++ repo_name) t.repos_contributed })
    else (o, t)

/-- Body of the per-repository commit loop (lines 212-217): add the length of
a bare-array commit listing to both commit counters.  The batching of lines
210-221 (batch size 3 with a quota refresh after each batch) only throttles
requests and does not affect any counter. -/
def commitStep (cfg : Config) (username org : String) :
    Counters × Counters → String → Counters × Counters
  | (o, t), repo_name =>
    match cfg.fetch (commits_url org repo_name username) with
    | SResp.list xs =>
      ({ o with commits := o.commits + xs.length },
       { t with commits := t.commits + xs.length })
    | _ => (o, t)

/-- The authored-PRs phase (lines 156-181). -/
def prPhase (cfg : Config) (username org : String) :
    Counters × Counters → Counters × Counters
  | (o, t) =>
    match cfg.fetch (prs_created_url cfg username org) with
    | SResp.items pr_items =>
      let o := { o with pr_total := pr_items.length }
      let t := { t with pr_total := t.pr_total + pr_items.length }
      pr_items.foldl (prStep org) (o, t)
    | _ => (o, t)

/-- The authored-issues phase (lines 183-203). -/
def issuePhase (cfg : Config) (username org : String) :
    Counters × Counters → Counters × Counters
  | (o, t) =>
    match cfg.fetch (issues_search_url cfg username org) with
    | SResp.items issue_items =>
      let o := { o with issues_opened := issue_items.length }
      let t := { t with issues_opened := t.issues_opened + issue_items.length }
      issue_items.foldl (issueStep org) (o, t)
    | _ => (o, t)

/-- The commit-count phase (lines 205-221), iterating over the snapshot
`repo_list = list(org_stats['repos_contributed'])`. -/
def commitPhase (cfg : Config) (username org : String)
    (ot : Counters × Counters) : Counters × Counters :=
  ot.1.repos_contributed.foldl (commitStep cfg username org) ot

/-- The review phase (lines 223-228). -/
def reviewPhase (cfg : Config) (username org : String) :
    Counters × Counters → Counters × Counters
  | (o, t) =>
    match cfg.fetch (reviews_url cfg username org) with
    | SResp.items xs =>
      ({ o with reviews_submitted := xs.length },
       { t with reviews_submitted := t.reviews_submitted + xs.length })
    | _ => (o, t)

/-- The comment-participation phase (lines 230-247): two separate searches
whose items counts are summed into `issues_commented`. -/
def commentPhase (cfg : Config) (username org : String) :
    Counters × Counters → Counters × Counters
  | (o, t) =>
    let ci := match cfg.fetch (comments_url_issues cfg username org) with
      | SResp.items xs => xs.length
      | _ => 0
    let cp := match cfg.fetch (comments_url_prs cfg username org) with
      | SResp.items xs => xs.length
      | _ => 0
    let comment_count := ci + cp
    ({ o with issues_commented := comment_count },
     { t with issues_commented := t.issues_commented + comment_count })

/-- One iteration of the per-organization loop (lines 152-250): a fresh
per-organization counter set (the loop is faithful for duplicate-free
organization lists; with a repeated organization the source crashes on its
second pass, because line 250 has replaced the repository set of the shared
dict entry by an integer). -/
def processOrg (cfg : Config) (username org : String) (t : Counters) :
    Counters × Counters :=
  commentPhase cfg username org
    (reviewPhase cfg username org
      (commitPhase cfg username org
        (issuePhase cfg username org
          (prPhase cfg username org (czero, t)))))

/-- One flattened per-organization field group of the returned record: the
counters with the repository set already collapsed to its cardinality
(line 250). -/
structure OrgOut where
  pr_total : Nat
  pr_merged : Nat
  pr_open : Nat
  commits : Nat
  issues_opened : Nat
  issues_closed : Nat
  issues_commented : Nat
  repos_contributed : Nat
  reviews_submitted : Nat
deriving DecidableEq, Repr

/-- Collapse the repository set of finished per-organization counters. -/
def finishOrg (o : Counters) : OrgOut :=
  ⟨o.pr_total, o.pr_merged, o.pr_open, o.commits, o.issues_opened,
    o.issues_closed, o.issues_commented, o.repos_contributed.length,
    o.reviews_submitted⟩

/-- The record returned by `get_user_stats` (lines 255-268): top-level
counters, the overall repository count, and the flattened per-organization
field groups.  The source stores the latter under string keys prefixed by the
normalized organization name (lines 259-262); they are modeled as an
association list keyed by the organization. -/
structure UserStats where
  username : String
  pr_total : Nat
  pr_merged : Nat
  pr_open : Nat
  commits : Nat
  issues_opened : Nat
  issues_closed : Nat
  issues_commented : Nat
  repos_contributed : Nat
  reviews_submitted : Nat
  orgs : List (String × OrgOut)
deriving DecidableEq, Repr

/-- The per-organization fold of `get_user_stats`. -/
def orgFold (cfg : Config) (username : String) (orgs : List String)
    (acc : List (String × OrgOut) × Counters) :
    List (String × OrgOut) × Counters :=
  orgs.foldl
    (fun acc org =>
      let (outs, t) := acc
      let (o, t2) := processOrg cfg username org t
      (outs ++ [(org, finishOrg o)], t2))
    acc

/-- `get_user_stats` (lines 113-268). -/
def get_user_stats (cfg : Config) (username : String) : UserStats :=
  let (orgOuts, t) := orgFold cfg username cfg.organizations ([], czero)
  ⟨username, t.pr_total, t.pr_merged, t.pr_open, t.commits, t.issues_opened,
    t.issues_closed, t.issues_commented, t.repos_contributed.length,
    t.reviews_submitted, orgOuts⟩

/-! ### Stats Aggregator theorems (claims C6, C7) -/

/-- Claim C6: in the per-PR classification loop, the per-organization and
top-level merged counters grow by exactly one for a PR whose state is
`closed` with a truthy merge timestamp and are unchanged otherwise (in
particular a closed PR without a merge timestamp is counted in the total but
neither as merged nor as open), and the open counters grow by exactly one for
a PR whose state is `open` and are unchanged otherwise. -/
theorem pr_classification (org : String) (o t : Counters) (pr : SItem) :
    ((prStep org (o, t) pr).1.pr_merged = o.pr_merged +
      (if pr.state = some "closed" ∧ pyTruthy pr.merged_at = true then 1 else 0)) ∧
    ((prStep org (o, t) pr).1.pr_open = o.pr_open +
      (if pr.state = some "open" then 1 else 0)) ∧
    ((prStep org (o, t) pr).2.pr_merged = t.pr_merged +
      (if pr.state = some "closed" ∧ pyTruthy pr.merged_at = true then 1 else 0)) ∧
    ((prStep org (o, t) pr).2.pr_open = t.pr_open +
      (if pr.state = some "open" then 1 else 0)) := by
  simp only [prStep]
  split_ifs with h1 h2 h3 h4 h5 h6 h7 h8 <;> simp_all

/-! Helper lemmas for the additivity proof of claim C7. -/

theorem mem_setInsert_self (x : String) (s : List String) : x ∈ setInsert x s := by
  by_cases h : x ∈ s <;> simp [setInsert, h]

theorem mem_setInsert_of_mem {y : String} {s : List String} (x : String)
    (h : y ∈ s) : y ∈ setInsert x s := by
  by_cases hx : x ∈ s <;> simp [setInsert, hx, h]

theorem mem_of_mem_setInsert {x y : String} {s : List String}
    (h : y ∈ setInsert x s) : y = x ∨ y ∈ s := by
  by_cases hx : x ∈ s
  · simp [setInsert, hx] at h; exact Or.inr h
  · simp [setInsert, hx] at h; exact h

theorem length_setInsert_le (x : String) (s : List String) :
    (setInsert x s).length ≤ s.length + 1 := by
  by_cases h : x ∈ s <;> simp [setInsert, h]

theorem length_le_setInsert (x : String) (s : List String) :
    s.length ≤ (setInsert x s).length := by
  by_cases h : x ∈ s <;> simp [setInsert, h]

/-- The per-organization repository set determines a lower bound for the
org-qualified top-level entries: every repository in the per-organization set
has its qualified name in the top-level set. -/
def ReposAligned (org : String) (o t : Counters) : Prop :=
  ∀ n, n ∈ o.repos_contributed → (org ++ "/" ++ n) ∈ t.repos_contributed

/-- Relation preserved by every iteration of the three inner loops of one
organization pass: the total/opened/commented/review counters are untouched,
the open/merged/commit/closed counters change by the same amount on the
per-organization and top-level side, and repository insertions happen in
aligned pairs so that the top-level set gains at most as many entries as the
per-organization set. -/
def StepRel (org : String) (p q : Counters × Counters) : Prop :=
  q.1.pr_total = p.1.pr_total ∧ q.2.pr_total = p.2.pr_total ∧
  q.1.pr_open + p.2.pr_open = q.2.pr_open + p.1.pr_open ∧
  q.1.pr_merged + p.2.pr_merged = q.2.pr_merged + p.1.pr_merged ∧
  q.1.commits + p.2.commits = q.2.commits + p.1.commits ∧
  q.1.issues_opened = p.1.issues_opened ∧ q.2.issues_opened = p.2.issues_opened ∧
  q.1.issues_closed + p.2.issues_closed = q.2.issues_closed + p.1.issues_closed ∧
  q.1.issues_commented = p.1.issues_commented ∧
  q.2.issues_commented = p.2.issues_commented ∧
  q.1.reviews_submitted = p.1.reviews_submitted ∧
  q.2.reviews_submitted = p.2.reviews_submitted ∧
  (ReposAligned org p.1 p.2 →
    ReposAligned org q.1 q.2 ∧
    q.2.repos_contributed.length + p.1.repos_contributed.length ≤
      p.2.repos_contributed.length + q.1.repos_contributed.length)

theorem stepRel_refl (org : String) (p : Counters × Counters) : StepRel org p p := by
  refine ⟨rfl, rfl, by omega, by omega, by omega, rfl, rfl, by omega,
    rfl, rfl, rfl, rfl, ?_⟩
  exact fun h => ⟨h, le_refl _⟩

theorem stepRel_trans {org : String} {p q r : Counters × Counters}
    (h1 : StepRel org p q) (h2 : StepRel org q r) : StepRel org p r := by
  obtain ⟨a1, b1, c1, d1, e1, f1, g1, i1, j1, k1, l1, m1, n1⟩ := h1
  obtain ⟨a2, b2, c2, d2, e2, f2, g2, i2, j2, k2, l2, m2, n2⟩ := h2
  refine ⟨a2.trans a1, b2.trans b1, by omega, by omega, by omega,
    f2.trans f1, g2.trans g1, by omega, j2.trans j1, k2.trans k1,
    l2.trans l1, m2.trans m1, ?_⟩
  intro hal
  obtain ⟨hal1, hlen1⟩ := n1 hal
  obtain ⟨hal2, hlen2⟩ := n2 hal1
  exact ⟨hal2, by omega⟩

/-- Aligned pairwise insertion of a repository name into both sets. -/
theorem reposInsert_rel (org repo_name : String) {o t : Counters}
    (o' t' : Counters)
    (ho : o'.repos_contributed = setInsert repo_name o.repos_contributed)
    (ht : t'.repos_contributed =
      setInsert (org ++ "/" ++ repo_name) t.repos_contributed)
    (hal : ReposAligned org o t) :
    ReposAligned org o' t' ∧
    t'.repos_contributed.length + o.repos_contributed.length ≤
      t.repos_contributed.length + o'.repos_contributed.length := by
  constructor
  · intro n hn
    rw [ho] at hn
    rw [ht]
    rcases mem_of_mem_setInsert hn with h | h
    · subst h; exact mem_setInsert_self _ _
    · exact mem_setInsert_of_mem _ (hal n h)
  · by_cases hmem : repo_name ∈ o.repos_contributed
    · have h1 : o'.repos_contributed = o.repos_contributed := by
        rw [ho]; simp [setInsert, hmem]
      have h2 : t'.repos_contributed = t.repos_contributed := by
        rw [ht]; simp [setInsert, hal _ hmem]
      rw [h1, h2]
    · have h1 : o'.repos_contributed.length = o.repos_contributed.length + 1 := by
        rw [ho]; simp [setInsert, hmem]
      have h2 := length_setInsert_le (org ++ "/" ++ repo_name) t.repos_contributed
      rw [ht]
      omega

theorem prStep_rel (org : String) (p : Counters × Counters) (pr : SItem) :
    StepRel org p (prStep org p pr) := by
  obtain ⟨o, t⟩ := p
  simp only [prStep, StepRel]
  split_ifs <;> dsimp only <;>
    refine ⟨rfl, rfl, by omega, by omega, by omega, rfl, rfl, by omega,
      rfl, rfl, rfl, rfl, fun hal => ?_⟩ <;>
    first
      | exact ⟨hal, le_refl _⟩
      | exact reposInsert_rel org _ _ _ rfl rfl hal

theorem issueStep_rel (org : String) (p : Counters × Counters) (issue : SItem) :
    StepRel org p (issueStep org p issue) := by
  obtain ⟨o, t⟩ := p
  simp only [issueStep, StepRel]
  split_ifs <;> dsimp only <;>
    refine ⟨rfl, rfl, by omega, by omega, by omega, rfl, rfl, by omega,
      rfl, rfl, rfl, rfl, fun hal => ?_⟩ <;>
    first
      | exact ⟨hal, le_refl _⟩
      | exact reposInsert_rel org _ _ _ rfl rfl hal

theorem commitStep_rel (cfg : Config) (username org : String)
    (p : Counters × Counters) (repo_name : String) :
    StepRel org p (commitStep cfg username org p repo_name) := by
  obtain ⟨o, t⟩ := p
  simp only [commitStep, StepRel]
  cases cfg.fetch (commits_url org repo_name username) <;> dsimp only <;>
    exact ⟨rfl, rfl, by omega, by omega, by omega, rfl, rfl, by omega,
      rfl, rfl, rfl, rfl, fun hal => ⟨hal, le_refl _⟩⟩

theorem foldl_rel {α : Type} {org : String}
    (f : Counters × Counters → α → Counters × Counters)
    (hf : ∀ p x, StepRel org p (f p x)) :
    ∀ (l : List α) (p : Counters × Counters), StepRel org p (l.foldl f p) := by
  intro l
  induction l with
  | nil => intro p; exact stepRel_refl org p
  | cons x xs ih =>
    intro p
    exact stepRel_trans (hf p x) (ih (f p x))

/-- What one organization phase guarantees relative to its input pair `p`:
the field assigned by this phase satisfies its accounting equation given that
the per-organization side was still zero; every other assigned field is
untouched on both sides; the four loop-accumulated fields change in lockstep;
repository insertions stay aligned. -/
def PhaseOut (org : String) (p q : Counters × Counters) : Prop :=
  q.2.pr_total + p.1.pr_total = p.2.pr_total + q.1.pr_total ∧
  q.1.pr_open + p.2.pr_open = q.2.pr_open + p.1.pr_open ∧
  q.1.pr_merged + p.2.pr_merged = q.2.pr_merged + p.1.pr_merged ∧
  q.1.commits + p.2.commits = q.2.commits + p.1.commits ∧
  q.2.issues_opened + p.1.issues_opened = p.2.issues_opened + q.1.issues_opened ∧
  q.1.issues_closed + p.2.issues_closed = q.2.issues_closed + p.1.issues_closed ∧
  q.2.issues_commented + p.1.issues_commented =
    p.2.issues_commented + q.1.issues_commented ∧
  q.2.reviews_submitted + p.1.reviews_submitted =
    p.2.reviews_submitted + q.1.reviews_submitted ∧
  (ReposAligned org p.1 p.2 →
    ReposAligned org q.1 q.2 ∧
    q.2.repos_contributed.length + p.1.repos_contributed.length ≤
      p.2.repos_contributed.length + q.1.repos_contributed.length)

theorem phaseOut_trans {org : String} {p q r : Counters × Counters}
    (h1 : PhaseOut org p q) (h2 : PhaseOut org q r) : PhaseOut org p r := by
  obtain ⟨a1, b1, c1, d1, e1, f1, g1, i1, n1⟩ := h1
  obtain ⟨a2, b2, c2, d2, e2, f2, g2, i2, n2⟩ := h2
  refine ⟨by omega, by omega, by omega, by omega, by omega, by omega,
    by omega, by omega, ?_⟩
  intro hal
  obtain ⟨hal1, hlen1⟩ := n1 hal
  obtain ⟨hal2, hlen2⟩ := n2 hal1
  exact ⟨hal2, by omega⟩

theorem stepRel_phaseOut {org : String} {p q : Counters × Counters}
    (h : StepRel org p q) : PhaseOut org p q := by
  obtain ⟨a, b, c, d, e, f, g, i, j, k, l, m, n⟩ := h
  exact ⟨by omega, c, d, e, by omega, i, by omega, by omega, n⟩

/-- Accounting of the authored-PRs phase (lines 156-181): besides the
lockstep accounting, the phase leaves the per-organization issue, review and
comment counters untouched.  The assignment of the PR total requires the
per-organization total to still be zero. -/
theorem prPhase_spec (cfg : Config) (u org : String) (p : Counters × Counters)
    (h0 : p.1.pr_total = 0) :
    PhaseOut org p (prPhase cfg u org p) ∧
    (prPhase cfg u org p).1.issues_opened = p.1.issues_opened ∧
    (prPhase cfg u org p).1.reviews_submitted = p.1.reviews_submitted ∧
    (prPhase cfg u org p).1.issues_commented = p.1.issues_commented := by
  obtain ⟨o, t⟩ := p
  dsimp only at h0
  simp only [prPhase]
  split
  · rename_i pr_items heq
    have hrel := foldl_rel (prStep org) (prStep_rel org) pr_items
      ({ o with pr_total := pr_items.length },
       { t with pr_total := t.pr_total + pr_items.length })
    have hout := stepRel_phaseOut hrel
    obtain ⟨a, b, c, d, e, f, g, i, n⟩ := hout
    obtain ⟨a', b', _, _, _, f', _, _, j', _, l', _, _⟩ := hrel
    simp only [PhaseOut]
    dsimp only at a b c d e f g i n a' b' f' j' l' ⊢
    refine ⟨⟨by omega, by omega, by omega, by omega, by omega, by omega,
      by omega, by omega, ?_⟩, by omega, by omega, by omega⟩
    intro hal
    exact n hal
  · simp only [PhaseOut]
    refine ⟨⟨?_, ?_, ?_, ?_, ?_, ?_, ?_, ?_, ?_⟩, ?_, ?_, ?_⟩ <;>
      first
        | trivial
        | omega
        | exact fun hal => ⟨hal, le_refl _⟩

/-- Accounting of the authored-issues phase (lines 183-203). -/
theorem issuePhase_spec (cfg : Config) (u org : String)
    (p : Counters × Counters) (h0 : p.1.issues_opened = 0) :
    PhaseOut org p (issuePhase cfg u org p) ∧
    (issuePhase cfg u org p).1.reviews_submitted = p.1.reviews_submitted ∧
    (issuePhase cfg u org p).1.issues_commented = p.1.issues_commented := by
  obtain ⟨o, t⟩ := p
  dsimp only at h0
  simp only [issuePhase]
  split
  · rename_i issue_items heq
    have hrel := foldl_rel (issueStep org) (issueStep_rel org) issue_items
      ({ o with issues_opened := issue_items.length },
       { t with issues_opened := t.issues_opened + issue_items.length })
    have hout := stepRel_phaseOut hrel
    obtain ⟨a, b, c, d, e, f, g, i, n⟩ := hout
    obtain ⟨_, _, _, _, _, f', g', _, j', _, l', _, _⟩ := hrel
    simp only [PhaseOut]
    dsimp only at a b c d e f g i n f' g' j' l' ⊢
    refine ⟨⟨by omega, by omega, by omega, by omega, by omega, by omega,
      by omega, by omega, ?_⟩, by omega, by omega⟩
    intro hal
    exact n hal
  · simp only [PhaseOut]
    refine ⟨⟨?_, ?_, ?_, ?_, ?_, ?_, ?_, ?_, ?_⟩, ?_, ?_⟩ <;>
      first
        | trivial
        | omega
        | exact fun hal => ⟨hal, le_refl _⟩

/-- Accounting of the commit-count phase (lines 205-221). -/
theorem commitPhase_spec (cfg : Config) (u org : String)
    (p : Counters × Counters) :
    PhaseOut org p (commitPhase cfg u org p) ∧
    (commitPhase cfg u org p).1.reviews_submitted = p.1.reviews_submitted ∧
    (commitPhase cfg u org p).1.issues_commented = p.1.issues_commented := by
  have hrel := foldl_rel (commitStep cfg u org) (commitStep_rel cfg u org)
    p.1.repos_contributed p
  obtain ⟨_, _, _, _, _, _, _, _, j, _, l, _, _⟩ := hrel
  exact ⟨stepRel_phaseOut (foldl_rel (commitStep cfg u org)
    (commitStep_rel cfg u org) p.1.repos_contributed p), l, j⟩

/-- Accounting of the review phase (lines 223-228). -/
theorem reviewPhase_spec (cfg : Config) (u org : String)
    (p : Counters × Counters) (h0 : p.1.reviews_submitted = 0) :
    PhaseOut org p (reviewPhase cfg u org p) ∧
    (reviewPhase cfg u org p).1.issues_commented = p.1.issues_commented := by
  obtain ⟨o, t⟩ := p
  dsimp only at h0
  simp only [reviewPhase]
  split
  · simp only [PhaseOut]
    refine ⟨⟨?_, ?_, ?_, ?_, ?_, ?_, ?_, ?_, ?_⟩, ?_⟩ <;>
      first
        | trivial
        | omega
        | exact fun hal => ⟨hal, le_refl _⟩
  · simp only [PhaseOut]
    refine ⟨⟨?_, ?_, ?_, ?_, ?_, ?_, ?_, ?_, ?_⟩, ?_⟩ <;>
      first
        | trivial
        | omega
        | exact fun hal => ⟨hal, le_refl _⟩

/-- Accounting of the comment-participation phase (lines 230-247). -/
theorem commentPhase_spec (cfg : Config) (u org : String)
    (p : Counters × Counters) (h0 : p.1.issues_commented = 0) :
    PhaseOut org p (commentPhase cfg u org p) := by
  obtain ⟨o, t⟩ := p
  dsimp only at h0
  simp only [commentPhase, PhaseOut]
  refine ⟨?_, ?_, ?_, ?_, ?_, ?_, ?_, ?_, ?_⟩ <;>
    first
      | trivial
      | omega
      | exact fun hal => ⟨hal, le_refl _⟩

/-- Accounting of one whole organization pass: the top-level counters grow by
exactly the finished per-organization counters, and the top-level repository
set by at most the per-organization repository count. -/
theorem processOrg_spec (cfg : Config) (u org : String) (t : Counters) :
    (processOrg cfg u org t).2.pr_total =
      t.pr_total + (processOrg cfg u org t).1.pr_total ∧
    (processOrg cfg u org t).2.pr_open =
      t.pr_open + (processOrg cfg u org t).1.pr_open ∧
    (processOrg cfg u org t).2.pr_merged =
      t.pr_merged + (processOrg cfg u org t).1.pr_merged ∧
    (processOrg cfg u org t).2.commits =
      t.commits + (processOrg cfg u org t).1.commits ∧
    (processOrg cfg u org t).2.issues_opened =
      t.issues_opened + (processOrg cfg u org t).1.issues_opened ∧
    (processOrg cfg u org t).2.issues_closed =
      t.issues_closed + (processOrg cfg u org t).1.issues_closed ∧
    (processOrg cfg u org t).2.issues_commented =
      t.issues_commented + (processOrg cfg u org t).1.issues_commented ∧
    (processOrg cfg u org t).2.reviews_submitted =
      t.reviews_submitted + (processOrg cfg u org t).1.reviews_submitted ∧
    (processOrg cfg u org t).2.repos_contributed.length ≤
      t.repos_contributed.length +
        (processOrg cfg u org t).1.repos_contributed.length := by
  have H1 := prPhase_spec cfg u org (czero, t) rfl
  set p1 := prPhase cfg u org (czero, t) with hp1
  obtain ⟨P1, hio1, hrev1, hicm1⟩ := H1
  have H2 := issuePhase_spec cfg u org p1 (by rw [hio1]; simp [czero])
  set p2 := issuePhase cfg u org p1 with hp2
  obtain ⟨P2, hrev2, hicm2⟩ := H2
  have H3 := commitPhase_spec cfg u org p2
  set p3 := commitPhase cfg u org p2 with hp3
  obtain ⟨P3, hrev3, hicm3⟩ := H3
  have H4 := reviewPhase_spec cfg u org p3
    (by rw [hrev3, hrev2, hrev1]; simp [czero])
  set p4 := reviewPhase cfg u org p3 with hp4
  obtain ⟨P4, hicm4⟩ := H4
  have P5 := commentPhase_spec cfg u org p4
    (by rw [hicm4, hicm3, hicm2, hicm1]; simp [czero])
  have P15 := phaseOut_trans (phaseOut_trans (phaseOut_trans
    (phaseOut_trans P1 P2) P3) P4) P5
  have hproc : processOrg cfg u org t = commentPhase cfg u org p4 := by
    unfold processOrg
    rw [← hp1, ← hp2, ← hp3, ← hp4]
  rw [hproc]
  obtain ⟨a, b, c, d, e, f, g, i, n⟩ := P15
  have halz : ReposAligned org czero t := by
    intro x hx
    simp [czero] at hx
  obtain ⟨hal, hlen⟩ := n halz
  simp only [czero] at a b c d e f g i hlen
  -- (projections already reduced above)
  exact ⟨by omega, by omega, by omega, by omega, by omega, by omega,
    by omega, by omega, by omega⟩

/-- Sum of one counter over the flattened per-organization field groups. -/
def sumBy (f : OrgOut → Nat) (l : List (String × OrgOut)) : Nat :=
  (l.map (fun p => f p.2)).sum

theorem sumBy_append (f : OrgOut → Nat) (l1 l2 : List (String × OrgOut)) :
    sumBy f (l1 ++ l2) = sumBy f l1 + sumBy f l2 := by
  simp [sumBy]

theorem sumBy_nil (f : OrgOut → Nat) : sumBy f [] = 0 := rfl

/-- Accounting of the whole per-organization fold. -/
theorem orgFold_spec (cfg : Config) (u : String) :
    ∀ (orgs : List String) (outs : List (String × OrgOut)) (t : Counters),
      (orgFold cfg u orgs (outs, t)).2.pr_total +
          sumBy (fun x => x.pr_total) outs =
        t.pr_total + sumBy (fun x => x.pr_total) (orgFold cfg u orgs (outs, t)).1 ∧
      (orgFold cfg u orgs (outs, t)).2.pr_open +
          sumBy (fun x => x.pr_open) outs =
        t.pr_open + sumBy (fun x => x.pr_open) (orgFold cfg u orgs (outs, t)).1 ∧
      (orgFold cfg u orgs (outs, t)).2.pr_merged +
          sumBy (fun x => x.pr_merged) outs =
        t.pr_merged + sumBy (fun x => x.pr_merged) (orgFold cfg u orgs (outs, t)).1 ∧
      (orgFold cfg u orgs (outs, t)).2.commits +
          sumBy (fun x => x.commits) outs =
        t.commits + sumBy (fun x => x.commits) (orgFold cfg u orgs (outs, t)).1 ∧
      (orgFold cfg u orgs (outs, t)).2.issues_opened +
          sumBy (fun x => x.issues_opened) outs =
        t.issues_opened +
          sumBy (fun x => x.issues_opened) (orgFold cfg u orgs (outs, t)).1 ∧
      (orgFold cfg u orgs (outs, t)).2.issues_closed +
          sumBy (fun x => x.issues_closed) outs =
        t.issues_closed +
          sumBy (fun x => x.issues_closed) (orgFold cfg u orgs (outs, t)).1 ∧
      (orgFold cfg u orgs (outs, t)).2.issues_commented +
          sumBy (fun x => x.issues_commented) outs =
        t.issues_commented +
          sumBy (fun x => x.issues_commented) (orgFold cfg u orgs (outs, t)).1 ∧
      (orgFold cfg u orgs (outs, t)).2.reviews_submitted +
          sumBy (fun x => x.reviews_submitted) outs =
        t.reviews_submitted +
          sumBy (fun x => x.reviews_submitted) (orgFold cfg u orgs (outs, t)).1 ∧
      (orgFold cfg u orgs (outs, t)).2.repos_contributed.length +
          sumBy (fun x => x.repos_contributed) outs ≤
        t.repos_contributed.length +
          sumBy (fun x => x.repos_contributed) (orgFold cfg u orgs (outs, t)).1 := by
  intro orgs
  induction orgs with
  | nil =>
    intro outs t
    exact ⟨rfl, rfl, rfl, rfl, rfl, rfl, rfl, rfl, le_refl _⟩
  | cons org rest ih =>
    intro outs t
    obtain ⟨s1, s2, s3, s4, s5, s6, s7, s8, s9⟩ := processOrg_spec cfg u org t
    obtain ⟨i1, i2, i3, i4, i5, i6, i7, i8, i9⟩ :=
      ih (outs ++ [(org, finishOrg (processOrg cfg u org t).1)])
        (processOrg cfg u org t).2
    have hfold : orgFold cfg u (org :: rest) (outs, t) =
        orgFold cfg u rest
          (outs ++ [(org, finishOrg (processOrg cfg u org t).1)],
           (processOrg cfg u org t).2) := rfl
    rw [hfold]
    have e1 : sumBy (fun x => x.pr_total)
        (outs ++ [(org, finishOrg (processOrg cfg u org t).1)]) =
        sumBy (fun x => x.pr_total) outs + (processOrg cfg u org t).1.pr_total := by
      rw [sumBy_append]; rfl
    have e2 : sumBy (fun x => x.pr_open)
        (outs ++ [(org, finishOrg (processOrg cfg u org t).1)]) =
        sumBy (fun x => x.pr_open) outs + (processOrg cfg u org t).1.pr_open := by
      rw [sumBy_append]; rfl
    have e3 : sumBy (fun x => x.pr_merged)
        (outs ++ [(org, finishOrg (processOrg cfg u org t).1)]) =
        sumBy (fun x => x.pr_merged) outs + (processOrg cfg u org t).1.pr_merged := by
      rw [sumBy_append]; rfl
    have e4 : sumBy (fun x => x.commits)
        (outs ++ [(org, finishOrg (processOrg cfg u org t).1)]) =
        sumBy (fun x => x.commits) outs + (processOrg cfg u org t).1.commits := by
      rw [sumBy_append]; rfl
    have e5 : sumBy (fun x => x.issues_opened)
        (outs ++ [(org, finishOrg (processOrg cfg u org t).1)]) =
        sumBy (fun x => x.issues_opened) outs +
          (processOrg cfg u org t).1.issues_opened := by
      rw [sumBy_append]; rfl
    have e6 : sumBy (fun x => x.issues_closed)
        (outs ++ [(org, finishOrg (processOrg cfg u org t).1)]) =
        sumBy (fun x => x.issues_closed) outs +
          (processOrg cfg u org t).1.issues_closed := by
      rw [sumBy_append]; rfl
    have e7 : sumBy (fun x => x.issues_commented)
        (outs ++ [(org, finishOrg (processOrg cfg u org t).1)]) =
        sumBy (fun x => x.issues_commented) outs +
          (processOrg cfg u org t).1.issues_commented := by
      rw [sumBy_append]; rfl
    have e8 : sumBy (fun x => x.reviews_submitted)
        (outs ++ [(org, finishOrg (processOrg cfg u org t).1)]) =
        sumBy (fun x => x.reviews_submitted) outs +
          (processOrg cfg u org t).1.reviews_submitted := by
      rw [sumBy_append]; rfl
    have e9 : sumBy (fun x => x.repos_contributed)
        (outs ++ [(org, finishOrg (processOrg cfg u org t).1)]) =
        sumBy (fun x => x.repos_contributed) outs +
          (processOrg cfg u org t).1.repos_contributed.length := by
      rw [sumBy_append]; rfl
    exact ⟨by omega, by omega, by omega, by omega, by omega, by omega,
      by omega, by omega, by omega⟩

/-- Claim C7: for a configured organization list (duplicate-free — with a
repeated organization the source raises on the second pass and returns no
record), every overall counter of the record returned by `get_user_stats`
equals the sum of the corresponding per-organization counters of that record,
and the overall `repos_contributed` count is at most the sum of the
per-organization `repos_contributed` counts. -/
theorem user_stats_additive (cfg : Config) (u : String)
    (hnd : cfg.organizations.Nodup) :
    (get_user_stats cfg u).pr_total =
      sumBy (fun x => x.pr_total) (get_user_stats cfg u).orgs ∧
    (get_user_stats cfg u).pr_merged =
      sumBy (fun x => x.pr_merged) (get_user_stats cfg u).orgs ∧
    (get_user_stats cfg u).pr_open =
      sumBy (fun x => x.pr_open) (get_user_stats cfg u).orgs ∧
    (get_user_stats cfg u).commits =
      sumBy (fun x => x.commits) (get_user_stats cfg u).orgs ∧
    (get_user_stats cfg u).issues_opened =
      sumBy (fun x => x.issues_opened) (get_user_stats cfg u).orgs ∧
    (get_user_stats cfg u).issues_closed =
      sumBy (fun x => x.issues_closed) (get_user_stats cfg u).orgs ∧
    (get_user_stats cfg u).issues_commented =
      sumBy (fun x => x.issues_commented) (get_user_stats cfg u).orgs ∧
    (get_user_stats cfg u).reviews_submitted =
      sumBy (fun x => x.reviews_submitted) (get_user_stats cfg u).orgs ∧
    (get_user_stats cfg u).repos_contributed ≤
      sumBy (fun x => x.repos_contributed) (get_user_stats cfg u).orgs := by
  obtain ⟨h1, h2, h3, h4, h5, h6, h7, h8, h9⟩ :=
    orgFold_spec cfg u cfg.organizations [] czero
  simp only [sumBy_nil] at h1 h2 h3 h4 h5 h6 h7 h8 h9
  have z1 : czero.pr_total = 0 := rfl
  have z2 : czero.pr_open = 0 := rfl
  have z3 : czero.pr_merged = 0 := rfl
  have z4 : czero.commits = 0 := rfl
  have z5 : czero.issues_opened = 0 := rfl
  have z6 : czero.issues_closed = 0 := rfl
  have z7 : czero.issues_commented = 0 := rfl
  have z8 : czero.reviews_submitted = 0 := rfl
  have z9 : czero.repos_contributed.length = 0 := rfl
  refine ⟨?_, ?_, ?_, ?_, ?_, ?_, ?_, ?_, ?_⟩
  · show (orgFold cfg u cfg.organizations ([], czero)).2.pr_total =
      sumBy (fun x => x.pr_total) (orgFold cfg u cfg.organizations ([], czero)).1
    omega
  · show (orgFold cfg u cfg.organizations ([], czero)).2.pr_merged =
      sumBy (fun x => x.pr_merged) (orgFold cfg u cfg.organizations ([], czero)).1
    omega
  · show (orgFold cfg u cfg.organizations ([], czero)).2.pr_open =
      sumBy (fun x => x.pr_open) (orgFold cfg u cfg.organizations ([], czero)).1
    omega
  · show (orgFold cfg u cfg.organizations ([], czero)).2.commits =
      sumBy (fun x => x.commits) (orgFold cfg u cfg.organizations ([], czero)).1
    omega
  · show (orgFold cfg u cfg.organizations ([], czero)).2.issues_opened =
      sumBy (fun x => x.issues_opened)
        (orgFold cfg u cfg.organizations ([], czero)).1
    omega
  · show (orgFold cfg u cfg.organizations ([], czero)).2.issues_closed =
      sumBy (fun x => x.issues_closed)
        (orgFold cfg u cfg.organizations ([], czero)).1
    omega
  · show (orgFold cfg u cfg.organizations ([], czero)).2.issues_commented =
      sumBy (fun x => x.issues_commented)
        (orgFold cfg u cfg.organizations ([], czero)).1
    omega
  · show (orgFold cfg u cfg.organizations ([], czero)).2.reviews_submitted =
      sumBy (fun x => x.reviews_submitted)
        (orgFold cfg u cfg.organizations ([], czero)).1
    omega
  · show (orgFold cfg u cfg.organizations ([], czero)).2.repos_contributed.length ≤
      sumBy (fun x => x.repos_contributed)
        (orgFold cfg u cfg.organizations ([], czero)).1
    omega

/-- Claim C7 witness: a two-organization configuration with a stubbed fetch
oracle satisfies the additivity equations. -/
theorem user_stats_additive_witness :
    (["orgA", "orgB"] : List String).Nodup ∧
    ((get_user_stats ⟨["orgA", "orgB"], "", fun _ => SResp.other false⟩
        "alice").pr_total =
      sumBy (fun x => x.pr_total)
        (get_user_stats ⟨["orgA", "orgB"], "", fun _ => SResp.other false⟩
          "alice").orgs) :=
  ⟨by decide,
    (user_stats_additive ⟨["orgA", "orgB"], "", fun _ => SResp.other false⟩
      "alice" (by decide)).1⟩

/-! ### Run Orchestrator (`analyze_users`, lines 270-347)

The per-user aggregation `self.get_user_stats(username)` is abstracted as an
oracle `statsOf : String → Nat → Except String UserStats`, indexed by the
username and by the attempt number (0 for the first try of line 294, 1 for
the retry of line 314), since the retry may succeed after the quota reset.
Calls to `update_rate_limit_info` / `wait_for_rate_limit` / `save_progress`
and the error logging are recorded as events. -/

/-- Observable orchestrator events: the quota refresh and quota wait calls,
one aggregation attempt for a user, a checkpoint write (`save_progress`), and
an error log line. -/
inductive OrchEv where
  | refreshQuota
  | waitRL
  | fetchStats (u : String) (attempt : Nat)
  | saveProgress
  | logErr (msg : String)
deriving DecidableEq, Repr

/-- Orchestrator state: `self.completed_users` (a set, modeled duplicate-free),
the local `results` list of `analyze_users`, and the event log. -/
structure OrchSt where
  completed_users : List String
  results : List UserStats
  log : List OrchEv
deriving DecidableEq, Repr

/-- The phrase tested by line 306 against the stringified exception. -/
def rate_limit_phrase : String := "API rate limit exceeded"

/-- One iteration of the per-user loop of `analyze_users` (lines 287-322):
refresh quota, wait, try the aggregation; on success append the record, mark
the user completed and save progress; on failure log it, and when the message
contains the rate-limit phrase refresh, wait and retry exactly once — a retry
failure logs and saves progress without marking the user completed; any other
failure just moves on. -/
def processUser (statsOf : String → Nat → Except String UserStats)
    (st : OrchSt) (u : String) : OrchSt :=
  let st := { st with log := st.log ++
    [OrchEv.refreshQuota, OrchEv.waitRL, OrchEv.fetchStats u 0] }
  match statsOf u 0 with
  | Except.ok r =>
    { st with results := st.results ++ [r],
              completed_users := setInsert u st.completed_users,
              log := st.log ++ [OrchEv.saveProgress] }
  | Except.error e =>
    let st := { st with log := st.log ++ [OrchEv.logErr e] }
    if containsSub e rate_limit_phrase then
      let st := { st with log := st.log ++
        [OrchEv.refreshQuota, OrchEv.waitRL, OrchEv.fetchStats u 1] }
      match statsOf u 1 with
      | Except.ok r =>
        { st with results := st.results ++ [r],
                  completed_users := setInsert u st.completed_users,
                  log := st.log ++ [OrchEv.saveProgress] }
      | Except.error e2 =>
        { st with log := st.log ++ [OrchEv.logErr e2, OrchEv.saveProgress] }
    else st

/-- One iteration of the cached-result merge loop (lines 332-335): a stored
record is appended when its user is completed and not already present among
the result usernames. -/
def cachedStep (st : OrchSt) (cu : UserStats) : OrchSt :=
  if cu.username ∈ st.completed_users ∧
      cu.username ∉ st.results.map (fun r => r.username) then
    { st with results := st.results ++ [cu] }
  else st

/-- The post-loop merge of lines 324-337: when some completed user was not
pending in this run, load the stored results (`none` models a missing or
unreadable `github_analysis_results.json`) and merge them in. -/
def mergeCached (cachedResults : Option (List UserStats))
    (pending_users : List String) (st : OrchSt) : OrchSt :=
  if st.completed_users.filter (fun c => decide (c ∉ pending_users)) ≠ [] then
    match cachedResults with
    | some cached => cached.foldl cachedStep st
    | none => st
  else st

/-- `analyze_users` (lines 270-347): filter the pending users against the
completed set once, run the per-user loop, then merge cached records of
previously completed users.  The final write of the results file (lines
339-345) only persists `results` and is not modeled. -/
def analyze_users (statsOf : String → Nat → Except String UserStats)
    (cachedResults : Option (List UserStats)) (usernames : List String)
    (completed0 : List String) : List UserStats × OrchSt :=
  let st : OrchSt := ⟨completed0, [], []⟩
  let pending_users := usernames.filter (fun u => decide (u ∉ completed0))
  let st := pending_users.foldl (processUser statsOf) st
  let st := mergeCached cachedResults pending_users st
  (st.results, st)

/-! ### Run Orchestrator theorems (claims C4, C5, C10) -/

/-- Claim C4 counterexample.  The claim states that on a failure whose
message does not indicate quota exhaustion the orchestrator logs the error,
persists the checkpoint, and moves on.  With an aggregation failing with
message `boom`, the per-user step only refreshes, waits, fetches and logs:
no `save_progress` call occurs before moving on. -/
theorem process_user_no_save_cex :
    processUser (fun _ _ => Except.error "boom") ⟨[], [], []⟩ "alice" =
      ⟨[], [], [OrchEv.refreshQuota, OrchEv.waitRL, OrchEv.fetchStats "alice" 0,
        OrchEv.logErr "boom"]⟩ ∧
    OrchEv.saveProgress ∉
      (processUser (fun _ _ => Except.error "boom") ⟨[], [], []⟩ "alice").log :=
  ⟨by decide, by decide⟩

/-- Claim C4 (amended): on a failure whose message does not contain the
rate-limit phrase, the orchestrator logs the error and moves on to the next
user without retrying; the checkpoint is NOT persisted in this branch (the
completed set is unchanged, so the persisted file would not change either),
and the results and completed set are untouched. -/
theorem process_user_other_failure
    (statsOf : String → Nat → Except String UserStats) (st : OrchSt)
    (u e : String)
    (h1 : statsOf u 0 = Except.error e)
    (h2 : containsSub e rate_limit_phrase = false) :
    processUser statsOf st u =
      { st with log := st.log ++
          [OrchEv.refreshQuota, OrchEv.waitRL, OrchEv.fetchStats u 0,
           OrchEv.logErr e] } := by
  simp [processUser, h1, h2]

/-- Claim C4 (amended) witness. -/
theorem process_user_other_failure_witness :
    processUser (fun _ _ => Except.error "boom") ⟨["bob"], [], []⟩ "alice" =
      ⟨["bob"], [], [OrchEv.refreshQuota, OrchEv.waitRL,
        OrchEv.fetchStats "alice" 0, OrchEv.logErr "boom"]⟩ := by
  have h := process_user_other_failure (fun _ _ => Except.error "boom")
    ⟨["bob"], [], []⟩ "alice" "boom" rfl (by decide)
  simpa using h

/-- Claim C5: on a failure whose message contains the rate-limit phrase, the
orchestrator refreshes quota, waits for the rate limit, and retries the user
exactly once (the full event trace shows exactly two aggregation attempts);
if the retry succeeds the record is appended, the user completed and the
checkpoint saved; if the retry also fails, the checkpoint is persisted and
the user is neither retried further nor added to the completed set. -/
theorem process_user_rate_limit_retry_once
    (statsOf : String → Nat → Except String UserStats) (st : OrchSt)
    (u e : String)
    (h1 : statsOf u 0 = Except.error e)
    (h2 : containsSub e rate_limit_phrase = true) :
    processUser statsOf st u =
      match statsOf u 1 with
      | Except.ok r =>
        { st with results := st.results ++ [r],
                  completed_users := setInsert u st.completed_users,
                  log := st.log ++
                    [OrchEv.refreshQuota, OrchEv.waitRL, OrchEv.fetchStats u 0,
                     OrchEv.logErr e, OrchEv.refreshQuota, OrchEv.waitRL,
                     OrchEv.fetchStats u 1, OrchEv.saveProgress] }
      | Except.error e2 =>
        { st with log := st.log ++
            [OrchEv.refreshQuota, OrchEv.waitRL, OrchEv.fetchStats u 0,
             OrchEv.logErr e, OrchEv.refreshQuota, OrchEv.waitRL,
             OrchEv.fetchStats u 1, OrchEv.logErr e2,
             OrchEv.saveProgress] } := by
  cases h3 : statsOf u 1 with
  | ok r => simp [processUser, h1, h2, h3]
  | error e2 => simp [processUser, h1, h2, h3]

/-- Claim C5 witness: a rate-limit failure followed by a failing retry saves
progress and leaves the user outside the completed set after exactly two
attempts. -/
theorem process_user_rate_limit_retry_once_witness :
    processUser
        (fun _ n => Except.error
          (if n = 0 then "API rate limit exceeded for alice" else "again"))
        ⟨[], [], []⟩ "alice" =
      ⟨[], [],
        [OrchEv.refreshQuota, OrchEv.waitRL, OrchEv.fetchStats "alice" 0,
         OrchEv.logErr "API rate limit exceeded for alice",
         OrchEv.refreshQuota, OrchEv.waitRL, OrchEv.fetchStats "alice" 1,
         OrchEv.logErr "again", OrchEv.saveProgress]⟩ := by
  have h := process_user_rate_limit_retry_once
    (fun _ n => Except.error
      (if n = 0 then "API rate limit exceeded for alice" else "again"))
    ⟨[], [], []⟩ "alice" "API rate limit exceeded for alice" rfl (by decide)
  simpa using h

/-! Helper lemmas for claim C10. -/

/-- One per-user step adds at most the user itself to the completed set. -/
theorem processUser_completed (statsOf : String → Nat → Except String UserStats)
    (st : OrchSt) (v : String) :
    (processUser statsOf st v).completed_users = st.completed_users ∨
    (processUser statsOf st v).completed_users = setInsert v st.completed_users := by
  simp only [processUser]
  cases statsOf v 0 with
  | ok r => right; rfl
  | error e =>
    by_cases hc : containsSub e rate_limit_phrase = true
    · simp only [hc, if_true]
      cases statsOf v 1 with
      | ok r => right; rfl
      | error e2 => left; rfl
    · simp only [hc, if_false]
      left; rfl

/-- Records for the duplicated user accumulate one per occurrence; records of
other users never carry the duplicated username. -/
theorem processUser_countP (statsOf : String → Nat → Except String UserStats)
    (u : String) (r : UserStats)
    (hok : statsOf u 0 = Except.ok r)
    (hall : ∀ v n rv, statsOf v n = Except.ok rv → rv.username = v)
    (st : OrchSt) (v : String) :
    (processUser statsOf st v).results.countP (fun x => decide (x.username = u)) =
      st.results.countP (fun x => decide (x.username = u)) +
        (if v = u then 1 else 0) := by
  by_cases hv : v = u
  · subst hv
    simp only [processUser, hok, List.countP_append, if_pos rfl]
    have hr : r.username = v := hall v 0 r hok
    simp [List.countP_cons, hr]
  · simp only [if_neg hv]
    simp only [processUser]
    cases h0 : statsOf v 0 with
    | ok rv =>
      have hrv : rv.username = v := hall v 0 rv h0
      simp [List.countP_append, List.countP_cons, hrv, hv]
    | error e =>
      by_cases hc : containsSub e rate_limit_phrase = true
      · simp only [hc, if_true]
        cases h1 : statsOf v 1 with
        | ok rv =>
          have hrv : rv.username = v := hall v 1 rv h1
          simp [List.countP_append, List.countP_cons, hrv, hv]
        | error e2 => rfl
      · simp only [hc, if_false]
        rfl

/-- The per-user loop appends one matching record per occurrence of the
duplicated user in the pending list. -/
theorem loop_countP (statsOf : String → Nat → Except String UserStats)
    (u : String) (r : UserStats)
    (hok : statsOf u 0 = Except.ok r)
    (hall : ∀ v n rv, statsOf v n = Except.ok rv → rv.username = v) :
    ∀ (l : List String) (st : OrchSt),
      (l.foldl (processUser statsOf) st).results.countP
          (fun x => decide (x.username = u)) =
        st.results.countP (fun x => decide (x.username = u)) + l.count u := by
  intro l
  induction l with
  | nil => intro st; simp
  | cons v vs ih =>
    intro st
    rw [List.foldl_cons, ih (processUser statsOf st v),
      processUser_countP statsOf u r hok hall st v, List.count_cons]
    by_cases hv : v = u
    · simp [hv]; omega
    · have : (v == u) = false := by simp [hv]
      simp [hv, this]

/-- The per-user loop only marks processed users as completed. -/
theorem loop_completed (statsOf : String → Nat → Except String UserStats) :
    ∀ (l : List String) (st : OrchSt) (x : String),
      x ∈ (l.foldl (processUser statsOf) st).completed_users →
      x ∈ st.completed_users ∨ x ∈ l := by
  intro l
  induction l with
  | nil => intro st x hx; exact Or.inl hx
  | cons v vs ih =>
    intro st x hx
    rw [List.foldl_cons] at hx
    rcases ih (processUser statsOf st v) x hx with h | h
    · rcases processUser_completed statsOf st v with he | he
      · rw [he] at h; exact Or.inl h
      · rw [he] at h
        rcases mem_of_mem_setInsert h with h2 | h2
        · exact Or.inr (by simp [h2])
        · exact Or.inl h2
    · exact Or.inr (List.mem_cons_of_mem v h)

/-- The cached-result merge never adds a record carrying the duplicated
username, as long as that user either already has a record in the results or
is not in the completed set. -/
theorem cached_countP (u : String) :
    ∀ (cached : List UserStats) (st : OrchSt),
      (u ∈ st.results.map (fun x => x.username) ∨ u ∉ st.completed_users) →
      (cached.foldl cachedStep st).results.countP
          (fun x => decide (x.username = u)) =
        st.results.countP (fun x => decide (x.username = u)) := by
  intro cached
  induction cached with
  | nil => intro st _; rfl
  | cons cu rest ih =>
    intro st hpred
    rw [List.foldl_cons]
    have hcompl : (cachedStep st cu).completed_users = st.completed_users := by
      simp only [cachedStep]
      split <;> rfl
    by_cases hg : cu.username ∈ st.completed_users ∧
        cu.username ∉ st.results.map (fun x => x.username)
    · have hne : cu.username ≠ u := by
        intro heq
        rcases hpred with hmem | hnc
        · exact hg.2 (heq ▸ hmem)
        · exact hnc (heq ▸ hg.1)
      have hstep : (cachedStep st cu).results = st.results ++ [cu] := by
        simp only [cachedStep, if_pos hg]
      have hcnt : (cachedStep st cu).results.countP
          (fun x => decide (x.username = u)) =
          st.results.countP (fun x => decide (x.username = u)) := by
        rw [hstep]
        simp [List.countP_append, List.countP_cons, hne]
      rw [ih (cachedStep st cu), hcnt]
      rcases hpred with hmem | hnc
      · left
        rw [hstep]
        simp only [List.map_append, List.mem_append]
        exact Or.inl hmem
      · right
        rw [hcompl]
        exact hnc
    · have hstep : cachedStep st cu = st := by
        simp only [cachedStep, if_neg hg]
      rw [hstep, ih st hpred]

/-- Claim C10: when a username occurs several times in the list passed to
`analyze_users` and is not in the preloaded completed set, every occurrence
is analyzed and appended (the pending list is filtered against the completed
set only once, before the loop), so the returned result list carries exactly
one record per occurrence — duplicate records for a duplicated username.
The oracle hypotheses say that the aggregation succeeds for this user and
that `get_user_stats` stamps each record with its own username. -/
theorem duplicate_usernames_duplicate_records
    (statsOf : String → Nat → Except String UserStats)
    (cachedResults : Option (List UserStats))
    (usernames completed0 : List String) (u : String) (r : UserStats)
    (hok : statsOf u 0 = Except.ok r)
    (hu : u ∉ completed0)
    (hall : ∀ v n rv, statsOf v n = Except.ok rv → rv.username = v) :
    (analyze_users statsOf cachedResults usernames completed0).1.countP
      (fun x => decide (x.username = u)) = usernames.count u := by
  have hre : (analyze_users statsOf cachedResults usernames completed0).1 =
      (mergeCached cachedResults
        (usernames.filter (fun x => decide (x ∉ completed0)))
        ((usernames.filter (fun x => decide (x ∉ completed0))).foldl
          (processUser statsOf) ⟨completed0, [], []⟩)).results := rfl
  rw [hre]
  set pending := usernames.filter (fun x => decide (x ∉ completed0)) with hpend
  set st1 := pending.foldl (processUser statsOf) ⟨completed0, [], []⟩ with hst1
  have hcnt : st1.results.countP (fun x => decide (x.username = u)) =
      usernames.count u := by
    rw [hst1, loop_countP statsOf u r hok hall pending ⟨completed0, [], []⟩]
    have : pending.count u = usernames.count u := by
      rw [hpend]
      exact List.count_filter (by simpa using hu)
    simp [this]
  have hpred : u ∈ st1.results.map (fun x => x.username) ∨
      u ∉ st1.completed_users := by
    by_cases hc : usernames.count u = 0
    · right
      intro hmem
      rcases loop_completed statsOf pending ⟨completed0, [], []⟩ u
        (hst1 ▸ hmem) with h | h
      · exact hu h
      · have hmu : u ∈ usernames := List.mem_of_mem_filter (hpend ▸ h)
        have := List.count_pos_iff.mpr hmu
        omega
    · left
      have hpos : 0 < st1.results.countP (fun x => decide (x.username = u)) := by
        omega
      obtain ⟨a, ha, hp⟩ := List.countP_pos_iff.mp hpos
      have hpa : a.username = u := by simpa using hp
      exact List.mem_map.mpr ⟨a, ha, hpa⟩
  have hmerge : (mergeCached cachedResults pending st1).results.countP
      (fun x => decide (x.username = u)) =
      st1.results.countP (fun x => decide (x.username = u)) := by
    unfold mergeCached
    split
    · cases cachedResults with
      | some cached => exact cached_countP u cached st1 hpred
      | none => rfl
    · rfl
  rw [hmerge, hcnt]

/-- Claim C10 witness: the username `a`, listed twice and not yet completed,
yields two identical records in the returned result list. -/
theorem duplicate_usernames_duplicate_records_witness :
    (analyze_users
        (fun v _ => Except.ok ⟨v, 0, 0, 0, 0, 0, 0, 0, 0, 0, []⟩)
        none ["a", "a"] []).1.countP
      (fun x => decide (x.username = "a")) = (["a", "a"] : List String).count "a" :=
  duplicate_usernames_duplicate_records
    (fun v _ => Except.ok ⟨v, 0, 0, 0, 0, 0, 0, 0, 0, 0, []⟩)
    none ["a", "a"] [] "a" ⟨"a", 0, 0, 0, 0, 0, 0, 0, 0, 0, []⟩
    rfl (by decide) (fun v n rv h => by cases h; rfl)

end ContribCalc
